import Mathlib

/-!
Shallow embedding of the SayJong visual-scoring core
(CameraComponent head-pose / overlay pipeline and vowelModel_mono
feature extractor), over exact real arithmetic.  JavaScript numbers
are modelled as real numbers; `Math.sqrt` is `Real.sqrt`; thrown
`Error` values are modelled with `Except` and an explicit error type.
-/

namespace SayJong

noncomputable section

/-- A 3-D landmark point `{x, y, z}` (CameraComponent `LandmarkPoint`). -/
@[ext] structure Point3 where
  x : ℝ
  y : ℝ
  z : ℝ

/-- Componentwise subtraction of points (used for direction vectors). -/
def sub (a b : Point3) : Point3 := ⟨a.x - b.x, a.y - b.y, a.z - b.z⟩

/-- Componentwise addition of points. -/
def add (a b : Point3) : Point3 := ⟨a.x + b.x, a.y + b.y, a.z + b.z⟩

/-- Scalar multiple of a point. -/
def smul (t : ℝ) (a : Point3) : Point3 := ⟨t * a.x, t * a.y, t * a.z⟩

/-- Dot product `v.x*w.x + v.y*w.y + v.z*w.z`. -/
def dot (v w : Point3) : ℝ := v.x * w.x + v.y * w.y + v.z * w.z

/-- Cross product, exactly as the component formulas in the source. -/
def cross (v w : Point3) : Point3 :=
  ⟨v.y * w.z - v.z * w.y, v.z * w.x - v.x * w.z, v.x * w.y - v.y * w.x⟩

/-- Euclidean length `Math.sqrt(x*x + y*y + z*z)`. -/
def len (v : Point3) : ℝ := Real.sqrt (dot v v)

/-- Division of each component by the vector length, the normalization
pattern used three times inside `computeHeadPoseAnchor`. -/
def normalize3 (v : Point3) : Point3 :=
  ⟨v.x / len v, v.y / len v, v.z / len v⟩

/-- Head pose frame (CameraComponent `HeadPoseAnchor`). -/
@[ext] structure HeadPoseAnchor where
  origin : Point3
  rightVector : Point3
  upVector : Point3
  forwardVector : Point3
  scale : ℝ

/-- `eyeCenter = (leftEye + rightEye) / 2`. -/
def eyeCenter (leftEye rightEye : Point3) : Point3 :=
  ⟨(leftEye.x + rightEye.x) / 2, (leftEye.y + rightEye.y) / 2,
   (leftEye.z + rightEye.z) / 2⟩

/-- `rightVector`: normalized direction from the left eye to the right eye. -/
def rightVectorOf (leftEye rightEye : Point3) : Point3 :=
  normalize3 (sub rightEye leftEye)

/-- Temporary `downVector`: normalized direction from the eye center to
the nose tip. -/
def downVectorOf (nose leftEye rightEye : Point3) : Point3 :=
  normalize3 (sub nose (eyeCenter leftEye rightEye))

/-- `forwardVector = normalize(cross(rightVector, downVector))`. -/
def forwardVectorOf (nose leftEye rightEye : Point3) : Point3 :=
  normalize3 (cross (rightVectorOf leftEye rightEye) (downVectorOf nose leftEye rightEye))

/-- `upVector = normalize(cross(forwardVector, rightVector))`. -/
def upVectorOf (nose leftEye rightEye : Point3) : Point3 :=
  normalize3 (cross (forwardVectorOf nose leftEye rightEye) (rightVectorOf leftEye rightEye))

/-- The geometric body of `computeHeadPoseAnchor`, after the three anchor
points (nose, left eye inner 133, right eye inner 362) have been read from
the payload.  `scale` is the pre-normalization inter-eye length. -/
def computeHeadPoseAnchorPoints (nose leftEye rightEye : Point3) : HeadPoseAnchor :=
  ⟨nose, rightVectorOf leftEye rightEye, upVectorOf nose leftEye rightEye,
   forwardVectorOf nose leftEye rightEye, len (sub rightEye leftEye)⟩

/-- The two payload shapes accepted by `computeHeadPoseAnchor`:
an index-addressable array of `{x, y, z}` points, or a record mapping
index keys to `[x, y, z]` triples. -/
inductive LandmarksPayload where
  | arr (points : Nat → Point3)
  | record (table : Nat → ℝ × ℝ × ℝ)

/-- View of an `[x, y, z]` triple as a `{x, y, z}` point. -/
def pointOfTriple (c : ℝ × ℝ × ℝ) : Point3 := ⟨c.1, c.2.1, c.2.2⟩

/-- `computeHeadPoseAnchor`: reads landmarks 1, 133, 362 from either
payload shape, then builds the frame from the three anchor points. -/
def computeHeadPoseAnchor : LandmarksPayload → HeadPoseAnchor
  | .arr points => computeHeadPoseAnchorPoints (points 1) (points 133) (points 362)
  | .record table =>
      computeHeadPoseAnchorPoints
        ⟨(table 1).1, (table 1).2.1, (table 1).2.2⟩
        ⟨(table 133).1, (table 133).2.1, (table 133).2.2⟩
        ⟨(table 362).1, (table 362).2.1, (table 362).2.2⟩

/-- Value-level failure taxonomy: the `throw new Error(...)` sites of the
source, one constructor per distinct message family. -/
inductive VowelError where
  | missingLandmark (idx : Nat)
  | degenerateNormalization
  | unknownVowel (vowel : String)
deriving DecidableEq

/-- Per-vowel synthesis coefficients `{open, round, spread}`
(`open` is a Lean keyword, so the fields carry a `C` suffix). -/
structure Coeffs where
  openC : ℝ
  roundC : ℝ
  spreadC : ℝ

/-- `VOWEL_COEFFS_MONO`: the static coefficient table for the seven
derived monophthongs (the three basis vowels are deliberately absent). -/
def VOWEL_COEFFS_MONO (v : String) : Option Coeffs :=
  if v = "ㅓ" then some ⟨0.55, 0.0, 0.0⟩
  else if v = "ㅔ" then some ⟨0.40, 0.0, 0.70⟩
  else if v = "ㅐ" then some ⟨0.42, 0.0, 0.68⟩
  else if v = "ㅗ" then some ⟨0.35, 0.85, -0.15⟩
  else if v = "ㅛ" then some ⟨0.25, 0.90, -0.10⟩
  else if v = "ㅠ" then some ⟨0.12, 0.98, 0.15⟩
  else if v = "ㅡ" then some ⟨0.20, 0.0, 0.0⟩
  else none

/-- One captured calibration frame: landmark index to `[x, y, z]`. -/
structure CalibrationFrame where
  landmarks : Nat → ℝ × ℝ × ℝ

/-- The calibration JSON: one frame per `{neutral, a, u, i}`. -/
structure CalibrationData where
  neutral : CalibrationFrame
  a : CalibrationFrame
  u : CalibrationFrame
  i : CalibrationFrame

/-- Outer lip contour ids used by `computeTargetLandmarks`. -/
def outerLipIds : List Nat :=
  [61, 185, 40, 39, 37, 0, 267, 269, 270, 409, 291, 375, 321, 405, 314, 17, 84, 181, 91, 146]

/-- Inner lip contour ids used by `computeTargetLandmarks`. -/
def innerLipIds : List Nat :=
  [78, 191, 80, 81, 82, 13, 312, 311, 310, 415, 308, 324, 318, 402, 317, 14, 87, 178, 88, 95]

/-- All 40 mouth landmark ids (20 outer + 20 inner). -/
def allMouthIds : List Nat := outerLipIds ++ innerLipIds

/-- `vowel === 'ㅏ' || vowel === 'ㅜ' || vowel === 'ㅣ'`. -/
def isCalibrated (vowel : String) : Bool :=
  vowel = "ㅏ" || vowel = "ㅜ" || vowel = "ㅣ"

/-- The calibration frame selected by `calibratedKey`
(`'a'` for ㅏ, `'u'` for ㅜ, otherwise `'i'`). -/
def calibratedKeyFrame (cal : CalibrationData) (vowel : String) : CalibrationFrame :=
  if vowel = "ㅏ" then cal.a else if vowel = "ㅜ" then cal.u else cal.i

/-- Per-id interpolation of `computeTargetLandmarks` for derived vowels:
deltas of a/u/i from neutral, combined with the coefficients,
independently on each coordinate axis. -/
def interpPoint (cal : CalibrationData) (coeffs : Coeffs) (id : Nat) : ℝ × ℝ × ℝ :=
  let neutral := cal.neutral.landmarks id
  let a := cal.a.landmarks id
  let u := cal.u.landmarks id
  let i := cal.i.landmarks id
  let deltaA := (a.1 - neutral.1, a.2.1 - neutral.2.1, a.2.2 - neutral.2.2)
  let deltaU := (u.1 - neutral.1, u.2.1 - neutral.2.1, u.2.2 - neutral.2.2)
  let deltaI := (i.1 - neutral.1, i.2.1 - neutral.2.1, i.2.2 - neutral.2.2)
  (neutral.1 + coeffs.openC * deltaA.1 + coeffs.roundC * deltaU.1 + coeffs.spreadC * deltaI.1,
   neutral.2.1 + coeffs.openC * deltaA.2.1 + coeffs.roundC * deltaU.2.1 + coeffs.spreadC * deltaI.2.1,
   neutral.2.2 + coeffs.openC * deltaA.2.2 + coeffs.roundC * deltaU.2.2 + coeffs.spreadC * deltaI.2.2)

/-- The `staticTargetShape` record of `computeTargetLandmarks`: verbatim
calibration coordinates for the three basis vowels, coefficient
interpolation for known derived vowels, `Unknown vowel` otherwise. -/
def staticTargetShape (cal : CalibrationData) (vowel : String) :
    Except VowelError (Nat → ℝ × ℝ × ℝ) :=
  if isCalibrated vowel then
    Except.ok (fun id =>
      let coords := (calibratedKeyFrame cal vowel).landmarks id
      (coords.1, coords.2.1, coords.2.2))
  else
    match VOWEL_COEFFS_MONO vowel with
    | none => Except.error (VowelError.unknownVowel vowel)
    | some coeffs => Except.ok (fun id => interpPoint cal coeffs id)

/-- Steps 1–5 of the per-point overlay transform in
`computeTargetLandmarks`: offset from the calibrated origin, projection
into the calibrated basis, scaling by the inter-eye ratio, reconstruction
in the live basis, and translation to the live origin. -/
def transformPoint (calibratedPose userPose : HeadPoseAnchor)
    (staticPoint : ℝ × ℝ × ℝ) : Point3 :=
  let calibratedOffset : Point3 :=
    ⟨staticPoint.1 - calibratedPose.origin.x,
     staticPoint.2.1 - calibratedPose.origin.y,
     staticPoint.2.2 - calibratedPose.origin.z⟩
  let localX := dot calibratedOffset calibratedPose.rightVector
  let localY := dot calibratedOffset calibratedPose.upVector
  let localZ := dot calibratedOffset calibratedPose.forwardVector
  let scaleFactor := userPose.scale / calibratedPose.scale
  let scaledLocalX := localX * scaleFactor
  let scaledLocalY := localY * scaleFactor
  let scaledLocalZ := localZ * scaleFactor
  let worldOffset : Point3 :=
    ⟨scaledLocalX * userPose.rightVector.x + scaledLocalY * userPose.upVector.x +
       scaledLocalZ * userPose.forwardVector.x,
     scaledLocalX * userPose.rightVector.y + scaledLocalY * userPose.upVector.y +
       scaledLocalZ * userPose.forwardVector.y,
     scaledLocalX * userPose.rightVector.z + scaledLocalY * userPose.upVector.z +
       scaledLocalZ * userPose.forwardVector.z⟩
  ⟨userPose.origin.x + worldOffset.x,
   userPose.origin.y + worldOffset.y,
   userPose.origin.z + worldOffset.z⟩

/-- `computeTargetLandmarks`: static target shape for the vowel, then the
per-point transform from the calibrated pose (neutral calibration frame,
record payload) into the live pose (landmark array payload). -/
def computeTargetLandmarks (cal : CalibrationData) (allLandmarks : Nat → Point3)
    (vowel : String) : Except VowelError (Nat → Point3) :=
  match staticTargetShape cal vowel with
  | Except.error e => Except.error e
  | Except.ok shape =>
      let calibratedPose := computeHeadPoseAnchor (.record cal.neutral.landmarks)
      let userPose := computeHeadPoseAnchor (.arr allLandmarks)
      Except.ok (fun id => transformPoint calibratedPose userPose (shape id))

/-- `REQUIRED_LANDMARKS` of vowelModel_mono. -/
def REQUIRED_LANDMARKS : List Nat :=
  [1, 133, 362, 61, 291, 0, 13, 14, 17, 39, 81, 269, 311, 402, 405, 178, 181]

/-- `EPSILON = 1e-6`. -/
def EPSILON : ℝ := 1e-6

/-- `distance3D` on `[x, y, z]` triples. -/
def distance3D (p1 p2 : ℝ × ℝ × ℝ) : ℝ :=
  Real.sqrt ((p2.1 - p1.1) * (p2.1 - p1.1) + (p2.2.1 - p1.2.1) * (p2.2.1 - p1.2.1) +
    (p2.2.2 - p1.2.2) * (p2.2.2 - p1.2.2))

/-- `avgY`: mean of the y coordinates at the given indices. -/
def avgY (landmarks : Nat → ℝ × ℝ × ℝ) (indices : List Nat) : ℝ :=
  (indices.map (fun idx => (landmarks idx).2.1)).sum / indices.length

/-- `FeatureVec {A, W, P}` of vowelModel_mono. -/
structure FeatureVec where
  A : ℝ
  W : ℝ
  P : ℝ

/-- `computeFeatures`: validates the 17 required landmark indices
(first absent index raises `MissingLandmark`), rejects a sub-ε eye
distance, then returns the normalized aperture/width/pucker features. -/
def computeFeatures (landmarks : Nat → Option (ℝ × ℝ × ℝ)) :
    Except VowelError FeatureVec :=
  match REQUIRED_LANDMARKS.find? (fun idx => (landmarks idx).isNone) with
  | some idx => Except.error (VowelError.missingLandmark idx)
  | none =>
      let l : Nat → ℝ × ℝ × ℝ := fun idx => (landmarks idx).getD (0, 0, 0)
      let eyeDistance := distance3D (l 133) (l 362)
      if eyeDistance < EPSILON then Except.error VowelError.degenerateNormalization
      else
        let mouthWidth := distance3D (l 61) (l 291)
        let W := mouthWidth / eyeDistance
        let U := avgY l [13, 81, 178]
        let L := avgY l [14, 311, 405]
        let A := (L - U) / eyeDistance
        let P := 1.0 / max W EPSILON
        Except.ok ⟨A, W, P⟩

/-- `smoothingFactor = 0.7`. -/
def smoothingFactor : ℝ := 0.7

/-- `smoothBlendshapes`, with the React ref made an explicit state:
takes the history and the new vector, returns the new history and the
returned (smoothed) vector.  An empty history passes the input through;
otherwise each component is an EMA of the last history entry
(`lastVal || 0` modelled by `getD _ 0`), and the history is capped at 5. -/
def smoothBlendshapes (history : List (List ℝ)) (newBlendshapes : List ℝ) :
    List (List ℝ) × List ℝ :=
  if history = [] then
    (history ++ [newBlendshapes], newBlendshapes)
  else
    let lastBlendshapes := history.getLastD []
    let smoothed := newBlendshapes.mapIdx (fun index newVal =>
      let lastVal := lastBlendshapes.getD index 0
      lastVal * smoothingFactor + newVal * (1 - smoothingFactor))
    let pushed := history ++ [smoothed]
    (if pushed.length > 5 then pushed.tail else pushed, smoothed)

/-- Non-degenerate anchor triple: the eyes are distinct and the nose does
not lie on the line through the two eyes. -/
def nondegenerateAnchors (nose leftEye rightEye : Point3) : Prop :=
  leftEye ≠ rightEye ∧
  ∀ t : ℝ, nose ≠ add leftEye (smul t (sub rightEye leftEye))

end

/-! ### Vector algebra lemmas -/

theorem dot_self_nonneg (v : Point3) : 0 ≤ dot v v := by
  simp only [dot]
  nlinarith [sq_nonneg v.x, sq_nonneg v.y, sq_nonneg v.z]

theorem len_nonneg (v : Point3) : 0 ≤ len v := Real.sqrt_nonneg _

theorem len_mul_self (v : Point3) : len v * len v = dot v v :=
  Real.mul_self_sqrt (dot_self_nonneg v)

theorem len_eq_zero_iff (v : Point3) : len v = 0 ↔ v = ⟨0, 0, 0⟩ := by
  constructor
  · intro h
    have hd : dot v v = 0 := by
      have := len_mul_self v
      rw [h] at this
      linarith
    simp only [dot] at hd
    have hx : v.x = 0 := by nlinarith [sq_nonneg v.x, sq_nonneg v.y, sq_nonneg v.z]
    have hy : v.y = 0 := by nlinarith [sq_nonneg v.x, sq_nonneg v.y, sq_nonneg v.z]
    have hz : v.z = 0 := by nlinarith [sq_nonneg v.x, sq_nonneg v.y, sq_nonneg v.z]
    ext <;> simp [hx, hy, hz]
  · intro h
    subst h
    simp [len, dot, Real.sqrt_eq_zero']

theorem len_ne_zero (v : Point3) (h : v ≠ ⟨0, 0, 0⟩) : len v ≠ 0 :=
  fun hl => h ((len_eq_zero_iff v).mp hl)

theorem len_pos (v : Point3) (h : v ≠ ⟨0, 0, 0⟩) : 0 < len v :=
  lt_of_le_of_ne (len_nonneg v) (Ne.symm (len_ne_zero v h))

theorem sub_eq_zero_iff (a b : Point3) : sub a b = ⟨0, 0, 0⟩ ↔ a = b := by
  constructor
  · intro h
    have := Point3.mk.injEq (a.x - b.x) (a.y - b.y) (a.z - b.z) 0 0 0
    simp only [sub] at h
    rw [this] at h
    ext <;> [linarith [h.1]; linarith [h.2.1]; linarith [h.2.2]]
  · intro h
    subst h
    simp [sub]

theorem dot_normalize3_left (v w : Point3) :
    dot (normalize3 v) w = dot v w / len v := by
  simp only [dot, normalize3]
  ring

theorem normalize3_dot_self (v : Point3) (h : v ≠ ⟨0, 0, 0⟩) :
    dot (normalize3 v) (normalize3 v) = 1 := by
  have hl : len v ≠ 0 := len_ne_zero v h
  have hd : dot v v ≠ 0 := by
    rw [← len_mul_self]
    exact mul_ne_zero hl hl
  simp only [dot, normalize3]
  field_simp
  rw [len_mul_self v]
  simp [dot]

theorem normalize3_of_dot_one (v : Point3) (h : dot v v = 1) : normalize3 v = v := by
  have hl : len v = 1 := by
    simp [len, h]
  ext <;> simp [normalize3, hl]

theorem cross_dot_self (a b : Point3) :
    dot (cross a b) (cross a b) = dot a a * dot b b - dot a b * dot a b := by
  simp only [dot, cross]
  ring

theorem dot_cross_left (a b : Point3) : dot a (cross a b) = 0 := by
  simp only [dot, cross]
  ring

theorem dot_cross_right (a b : Point3) : dot (cross a b) b = 0 := by
  simp only [dot, cross]
  ring

theorem cross_cross_same (a b : Point3) :
    cross a (cross b a) = sub (smul (dot a a) b) (smul (dot a b) a) := by
  ext <;> (simp only [cross, sub, smul, dot]; ring)

theorem cross_normalize3 (a b : Point3) :
    cross (normalize3 a) (normalize3 b) = smul (1 / (len a * len b)) (cross a b) := by
  ext <;> (simp only [cross, normalize3, smul]; field_simp; ring)

theorem dot_comm (v w : Point3) : dot v w = dot w v := by
  simp only [dot]
  ring

theorem dot_normalize3_right (v w : Point3) :
    dot v (normalize3 w) = dot v w / len w := by
  simp only [dot, normalize3]
  ring

theorem dot_cross_outer (a b : Point3) : dot a (cross b a) = 0 := by
  simp only [dot, cross]
  ring

theorem dot_cross_first (a b : Point3) : dot (cross a b) a = 0 := by
  simp only [dot, cross]
  ring

theorem exists_smul_of_cross_eq_zero (a b : Point3) (ha : a ≠ ⟨0, 0, 0⟩)
    (h : cross a b = ⟨0, 0, 0⟩) : ∃ t : ℝ, b = smul t a := by
  simp only [cross, Point3.mk.injEq] at h
  obtain ⟨h1, h2, h3⟩ := h
  by_cases hx : a.x = 0
  · by_cases hy : a.y = 0
    · have hz : a.z ≠ 0 := by
        intro hz
        exact ha (by ext <;> simp [hx, hy, hz])
      refine ⟨b.z / a.z, ?_⟩
      ext
      · simp only [smul]
        have : a.z * b.x = 0 := by rw [hx] at h2; linarith
        have hbx : b.x = 0 := by
          rcases mul_eq_zero.mp this with h | h
          · exact absurd h hz
          · exact h
        rw [hbx, hx]
        ring
      · simp only [smul]
        have : a.z * b.y = 0 := by rw [hy] at h1; linarith
        have hby : b.y = 0 := by
          rcases mul_eq_zero.mp this with h | h
          · exact absurd h hz
          · exact h
        rw [hby, hy]
        ring
      · simp only [smul]
        field_simp
    · refine ⟨b.y / a.y, ?_⟩
      ext
      · simp only [smul]
        have : a.y * b.x = 0 := by rw [hx] at h3; linarith
        have hbx : b.x = 0 := by
          rcases mul_eq_zero.mp this with h | h
          · exact absurd h hy
          · exact h
        rw [hbx, hx]
        ring
      · simp only [smul]
        field_simp
      · simp only [smul]
        field_simp
        linear_combination h1
  · refine ⟨b.x / a.x, ?_⟩
    ext
    · simp only [smul]
      field_simp
    · simp only [smul]
      field_simp
      linear_combination h3
    · simp only [smul]
      field_simp
      linear_combination -h2

/-! ### Consequences of non-degeneracy -/

theorem nd_eye_sub (nose leftEye rightEye : Point3)
    (hnd : nondegenerateAnchors nose leftEye rightEye) :
    sub rightEye leftEye ≠ ⟨0, 0, 0⟩ :=
  fun h => hnd.1 (((sub_eq_zero_iff rightEye leftEye).mp h).symm)

theorem eyeCenter_on_line (leftEye rightEye : Point3) :
    eyeCenter leftEye rightEye =
      add leftEye (smul (1 / 2) (sub rightEye leftEye)) := by
  ext <;> (simp only [eyeCenter, add, smul, sub]; ring)

theorem nd_eyeToNose (nose leftEye rightEye : Point3)
    (hnd : nondegenerateAnchors nose leftEye rightEye) :
    sub nose (eyeCenter leftEye rightEye) ≠ ⟨0, 0, 0⟩ := by
  intro h
  have hc : nose = eyeCenter leftEye rightEye := (sub_eq_zero_iff _ _).mp h
  rw [eyeCenter_on_line] at hc
  exact hnd.2 (1 / 2) hc

theorem nd_cross (nose leftEye rightEye : Point3)
    (hnd : nondegenerateAnchors nose leftEye rightEye) :
    cross (rightVectorOf leftEye rightEye) (downVectorOf nose leftEye rightEye) ≠
      ⟨0, 0, 0⟩ := by
  intro h
  have ha := nd_eye_sub nose leftEye rightEye hnd
  have hb := nd_eyeToNose nose leftEye rightEye hnd
  rw [rightVectorOf, downVectorOf, cross_normalize3] at h
  have hscal : (1 : ℝ) / (len (sub rightEye leftEye) *
      len (sub nose (eyeCenter leftEye rightEye))) ≠ 0 :=
    one_div_ne_zero (mul_ne_zero (len_ne_zero _ ha) (len_ne_zero _ hb))
  have hcr : cross (sub rightEye leftEye) (sub nose (eyeCenter leftEye rightEye)) =
      ⟨0, 0, 0⟩ := by
    simp only [smul, Point3.mk.injEq] at h
    obtain ⟨h1, h2, h3⟩ := h
    ext
    · exact (mul_eq_zero.mp h1).resolve_left hscal
    · exact (mul_eq_zero.mp h2).resolve_left hscal
    · exact (mul_eq_zero.mp h3).resolve_left hscal
  obtain ⟨t, ht⟩ := exists_smul_of_cross_eq_zero _ _ ha hcr
  apply hnd.2 (t + 1 / 2)
  have hx := congrArg Point3.x ht
  have hy := congrArg Point3.y ht
  have hz := congrArg Point3.z ht
  simp only [sub, smul, eyeCenter] at hx hy hz
  ext <;> simp only [add, smul, sub]
  · linarith
  · linarith
  · linarith

/-! ### Orthonormality of the constructed frame -/

theorem dot_right_right (nose leftEye rightEye : Point3)
    (hnd : nondegenerateAnchors nose leftEye rightEye) :
    dot (rightVectorOf leftEye rightEye) (rightVectorOf leftEye rightEye) = 1 :=
  normalize3_dot_self _ (nd_eye_sub nose leftEye rightEye hnd)

theorem dot_forward_forward (nose leftEye rightEye : Point3)
    (hnd : nondegenerateAnchors nose leftEye rightEye) :
    dot (forwardVectorOf nose leftEye rightEye)
      (forwardVectorOf nose leftEye rightEye) = 1 :=
  normalize3_dot_self _ (nd_cross nose leftEye rightEye hnd)

theorem dot_right_forward (nose leftEye rightEye : Point3) :
    dot (rightVectorOf leftEye rightEye) (forwardVectorOf nose leftEye rightEye) = 0 := by
  rw [forwardVectorOf, dot_normalize3_right, dot_cross_left, zero_div]

theorem upVector_eq_cross (nose leftEye rightEye : Point3)
    (hnd : nondegenerateAnchors nose leftEye rightEye) :
    upVectorOf nose leftEye rightEye =
      cross (forwardVectorOf nose leftEye rightEye) (rightVectorOf leftEye rightEye) := by
  rw [upVectorOf]
  apply normalize3_of_dot_one
  rw [cross_dot_self, dot_forward_forward nose leftEye rightEye hnd,
    dot_right_right nose leftEye rightEye hnd,
    dot_comm, dot_right_forward nose leftEye rightEye]
  ring

theorem dot_up_up (nose leftEye rightEye : Point3)
    (hnd : nondegenerateAnchors nose leftEye rightEye) :
    dot (upVectorOf nose leftEye rightEye) (upVectorOf nose leftEye rightEye) = 1 := by
  rw [upVector_eq_cross nose leftEye rightEye hnd, cross_dot_self,
    dot_forward_forward nose leftEye rightEye hnd,
    dot_right_right nose leftEye rightEye hnd,
    dot_comm, dot_right_forward nose leftEye rightEye]
  ring

theorem dot_right_up (nose leftEye rightEye : Point3)
    (hnd : nondegenerateAnchors nose leftEye rightEye) :
    dot (rightVectorOf leftEye rightEye) (upVectorOf nose leftEye rightEye) = 0 := by
  rw [upVector_eq_cross nose leftEye rightEye hnd, dot_cross_outer]

theorem dot_up_forward (nose leftEye rightEye : Point3)
    (hnd : nondegenerateAnchors nose leftEye rightEye) :
    dot (upVectorOf nose leftEye rightEye) (forwardVectorOf nose leftEye rightEye) = 0 := by
  rw [upVector_eq_cross nose leftEye rightEye hnd, dot_cross_first]

theorem cross_right_up (nose leftEye rightEye : Point3)
    (hnd : nondegenerateAnchors nose leftEye rightEye) :
    cross (rightVectorOf leftEye rightEye) (upVectorOf nose leftEye rightEye) =
      forwardVectorOf nose leftEye rightEye := by
  rw [upVector_eq_cross nose leftEye rightEye hnd, cross_cross_same,
    dot_right_right nose leftEye rightEye hnd,
    dot_right_forward nose leftEye rightEye]
  ext <;> simp [sub, smul]

/-! ### Orthonormal expansion (resolution of a vector in the frame) -/

theorem basis_decomp_x (r f v : Point3) (hr : dot r r = 1) (hf : dot f f = 1)
    (hrf : dot r f = 0) :
    dot v r * r.x + dot v (cross f r) * (cross f r).x + dot v f * f.x = v.x := by
  simp only [dot, cross] at *
  linear_combination
    (v.x * (f.y ^ 2 + f.z ^ 2) - v.y * f.x * f.y - v.z * f.x * f.z) * hr +
    (v.x * (1 - r.x ^ 2) - v.y * r.x * r.y - v.z * r.x * r.z) * hf +
    (v.x * (f.x * r.x - f.y * r.y - f.z * r.z) + v.y * (f.x * r.y + f.y * r.x) +
      v.z * (f.x * r.z + f.z * r.x)) * hrf

theorem basis_decomp_y (r f v : Point3) (hr : dot r r = 1) (hf : dot f f = 1)
    (hrf : dot r f = 0) :
    dot v r * r.y + dot v (cross f r) * (cross f r).y + dot v f * f.y = v.y := by
  simp only [dot, cross] at *
  linear_combination
    (v.y * (f.z ^ 2 + f.x ^ 2) - v.z * f.y * f.z - v.x * f.y * f.x) * hr +
    (v.y * (1 - r.y ^ 2) - v.z * r.y * r.z - v.x * r.y * r.x) * hf +
    (v.y * (f.y * r.y - f.z * r.z - f.x * r.x) + v.z * (f.y * r.z + f.z * r.y) +
      v.x * (f.y * r.x + f.x * r.y)) * hrf

theorem basis_decomp_z (r f v : Point3) (hr : dot r r = 1) (hf : dot f f = 1)
    (hrf : dot r f = 0) :
    dot v r * r.z + dot v (cross f r) * (cross f r).z + dot v f * f.z = v.z := by
  simp only [dot, cross] at *
  linear_combination
    (v.z * (f.x ^ 2 + f.y ^ 2) - v.x * f.z * f.x - v.y * f.z * f.y) * hr +
    (v.z * (1 - r.z ^ 2) - v.x * r.z * r.x - v.y * r.z * r.y) * hf +
    (v.z * (f.z * r.z - f.x * r.x - f.y * r.y) + v.x * (f.z * r.x + f.x * r.z) +
      v.y * (f.z * r.y + f.y * r.z)) * hrf

/-- The overlay transform is the identity when the live frame equals the
calibrated frame, for any frame whose basis is orthonormal with
`up = cross forward right` and whose scale is nonzero. -/
theorem transformPoint_self_of_orthonormal (A : HeadPoseAnchor)
    (hr : dot A.rightVector A.rightVector = 1)
    (hf : dot A.forwardVector A.forwardVector = 1)
    (hrf : dot A.rightVector A.forwardVector = 0)
    (hu : A.upVector = cross A.forwardVector A.rightVector)
    (hs : A.scale ≠ 0) (p : ℝ × ℝ × ℝ) :
    transformPoint A A p = pointOfTriple p := by
  obtain ⟨o, r, u, f, s⟩ := A
  simp only at hr hf hrf hu hs
  subst hu
  have hx := basis_decomp_x r f ⟨p.1 - o.x, p.2.1 - o.y, p.2.2 - o.z⟩ hr hf hrf
  have hy := basis_decomp_y r f ⟨p.1 - o.x, p.2.1 - o.y, p.2.2 - o.z⟩ hr hf hrf
  have hz := basis_decomp_z r f ⟨p.1 - o.x, p.2.1 - o.y, p.2.2 - o.z⟩ hr hf hrf
  simp only [dot, cross] at hx hy hz
  ext
  · simp only [transformPoint, pointOfTriple, dot, cross, div_self hs]
    linear_combination hx
  · simp only [transformPoint, pointOfTriple, dot, cross, div_self hs]
    linear_combination hy
  · simp only [transformPoint, pointOfTriple, dot, cross, div_self hs]
    linear_combination hz

/-- Identity transform for the frame built from a non-degenerate anchor
triple. -/
theorem transformPoint_anchor_self (nose leftEye rightEye : Point3)
    (hnd : nondegenerateAnchors nose leftEye rightEye) (p : ℝ × ℝ × ℝ) :
    transformPoint (computeHeadPoseAnchorPoints nose leftEye rightEye)
      (computeHeadPoseAnchorPoints nose leftEye rightEye) p = pointOfTriple p := by
  apply transformPoint_self_of_orthonormal
  · exact dot_right_right nose leftEye rightEye hnd
  · exact dot_forward_forward nose leftEye rightEye hnd
  · exact dot_right_forward nose leftEye rightEye
  · exact upVector_eq_cross nose leftEye rightEye hnd
  · exact len_ne_zero _ (nd_eye_sub nose leftEye rightEye hnd)

/-! ### Concrete data used by the witnesses -/

/-- A concrete neutral-frame landmark table with non-degenerate anchors. -/
def neutralLm : Nat → ℝ × ℝ × ℝ := fun idx =>
  if idx = 1 then (0.5, 1, 0)
  else if idx = 133 then (0, 0, 0)
  else if idx = 362 then (1, 0, 0)
  else (0.4, 0.6, 0)

/-- A concrete calibration set. -/
def calC : CalibrationData :=
  ⟨⟨neutralLm⟩, ⟨fun _ => (0.1, 0.2, 0.3)⟩, ⟨fun _ => (0.4, 0.5, 0.6)⟩,
   ⟨fun _ => (0.7, 0.8, 0.9)⟩⟩

/-- The array payload carrying the same coordinates as `neutralLm`. -/
def lmArrC : Nat → Point3 := fun idx => pointOfTriple (neutralLm idx)

theorem nondeg_concrete :
    nondegenerateAnchors ⟨0.5, 1, 0⟩ ⟨0, 0, 0⟩ ⟨1, 0, 0⟩ := by
  constructor
  · intro h
    have hx := congrArg Point3.x h
    norm_num at hx
  · intro t h
    have hy := congrArg Point3.y h
    simp only [add, smul, sub] at hy
    norm_num at hy

theorem calC_nondeg :
    nondegenerateAnchors (pointOfTriple (calC.neutral.landmarks 1))
      (pointOfTriple (calC.neutral.landmarks 133))
      (pointOfTriple (calC.neutral.landmarks 362)) :=
  nondeg_concrete

/-! ### Claim theorems -/

/-- C3: for every non-degenerate anchor triple (eyes distinct, nose off the
eye line), the three vectors of the frame returned by
`computeHeadPoseAnchor` are unit length, pairwise orthogonal, form a
right-handed basis (`cross right up = forward`), and the scale equals the
inter-eye distance and is positive.  Over exact real arithmetic the
tolerances of the claim collapse to exact equalities. -/
theorem headPoseAnchor_orthonormal (nose leftEye rightEye : Point3)
    (hnd : nondegenerateAnchors nose leftEye rightEye) :
    len (computeHeadPoseAnchorPoints nose leftEye rightEye).rightVector = 1 ∧
    len (computeHeadPoseAnchorPoints nose leftEye rightEye).upVector = 1 ∧
    len (computeHeadPoseAnchorPoints nose leftEye rightEye).forwardVector = 1 ∧
    dot (computeHeadPoseAnchorPoints nose leftEye rightEye).rightVector
      (computeHeadPoseAnchorPoints nose leftEye rightEye).upVector = 0 ∧
    dot (computeHeadPoseAnchorPoints nose leftEye rightEye).rightVector
      (computeHeadPoseAnchorPoints nose leftEye rightEye).forwardVector = 0 ∧
    dot (computeHeadPoseAnchorPoints nose leftEye rightEye).upVector
      (computeHeadPoseAnchorPoints nose leftEye rightEye).forwardVector = 0 ∧
    cross (computeHeadPoseAnchorPoints nose leftEye rightEye).rightVector
      (computeHeadPoseAnchorPoints nose leftEye rightEye).upVector =
      (computeHeadPoseAnchorPoints nose leftEye rightEye).forwardVector ∧
    (computeHeadPoseAnchorPoints nose leftEye rightEye).scale =
      len (sub rightEye leftEye) ∧
    0 < (computeHeadPoseAnchorPoints nose leftEye rightEye).scale := by
  refine ⟨?_, ?_, ?_, ?_, ?_, ?_, ?_, rfl, ?_⟩
  · show len (rightVectorOf leftEye rightEye) = 1
    rw [len, dot_right_right nose leftEye rightEye hnd, Real.sqrt_one]
  · show len (upVectorOf nose leftEye rightEye) = 1
    rw [len, dot_up_up nose leftEye rightEye hnd, Real.sqrt_one]
  · show len (forwardVectorOf nose leftEye rightEye) = 1
    rw [len, dot_forward_forward nose leftEye rightEye hnd, Real.sqrt_one]
  · exact dot_right_up nose leftEye rightEye hnd
  · exact dot_right_forward nose leftEye rightEye
  · exact dot_up_forward nose leftEye rightEye hnd
  · exact cross_right_up nose leftEye rightEye hnd
  · show 0 < len (sub rightEye leftEye)
    exact len_pos _ (nd_eye_sub nose leftEye rightEye hnd)

/-- Witness for C3 at a concrete non-degenerate anchor triple. -/
theorem headPoseAnchor_orthonormal_witness :
    nondegenerateAnchors ⟨0.5, 1, 0⟩ ⟨0, 0, 0⟩ ⟨1, 0, 0⟩ ∧
    len (computeHeadPoseAnchorPoints ⟨0.5, 1, 0⟩ ⟨0, 0, 0⟩ ⟨1, 0, 0⟩).rightVector = 1 ∧
    0 < (computeHeadPoseAnchorPoints ⟨0.5, 1, 0⟩ ⟨0, 0, 0⟩ ⟨1, 0, 0⟩).scale :=
  ⟨nondeg_concrete,
   (headPoseAnchor_orthonormal _ _ _ nondeg_concrete).1,
   (headPoseAnchor_orthonormal _ _ _ nondeg_concrete).2.2.2.2.2.2.2.2⟩

/-- C2 counterexample: with coincident eye points `computeHeadPoseAnchor`
does not report any failure — it returns a `HeadPoseAnchor` whose scale is
0 and whose right vector is the zero vector (the real-arithmetic value of
the source's division of the zero vector by its zero length; in
JavaScript the components are `NaN`, still a silently returned frame). -/
theorem headPoseAnchor_no_degeneracy_check :
    (computeHeadPoseAnchorPoints ⟨0, 0, 0⟩ ⟨1, 0, 0⟩ ⟨1, 0, 0⟩).scale = 0 ∧
    (computeHeadPoseAnchorPoints ⟨0, 0, 0⟩ ⟨1, 0, 0⟩ ⟨1, 0, 0⟩).rightVector =
      ⟨0, 0, 0⟩ := by
  constructor
  · show len (sub ⟨1, 0, 0⟩ ⟨1, 0, 0⟩) = 0
    rw [len_eq_zero_iff]
    ext <;> norm_num [sub]
  · show rightVectorOf ⟨1, 0, 0⟩ ⟨1, 0, 0⟩ = ⟨0, 0, 0⟩
    have hz : sub (⟨1, 0, 0⟩ : Point3) ⟨1, 0, 0⟩ = ⟨0, 0, 0⟩ := by
      ext <;> norm_num [sub]
    rw [rightVectorOf, hz]
    ext <;> simp [normalize3]

/-- C2 (amended): `computeHeadPoseAnchor` performs no degeneracy check:
for every input with coincident eye points it returns a frame (with
scale 0 and zero right vector in the real-arithmetic model), rather than
reporting a value-level failure. -/
theorem headPoseAnchor_coincident_eyes (nose eye : Point3) :
    (computeHeadPoseAnchorPoints nose eye eye).scale = 0 ∧
    (computeHeadPoseAnchorPoints nose eye eye).rightVector = ⟨0, 0, 0⟩ := by
  have hz : sub eye eye = ⟨0, 0, 0⟩ := by
    ext <;> simp [sub]
  constructor
  · show len (sub eye eye) = 0
    rw [hz, len_eq_zero_iff]
  · show rightVectorOf eye eye = ⟨0, 0, 0⟩
    rw [rightVectorOf, hz]
    ext <;> simp [normalize3]

/-- C10: the two payload shapes accepted by `computeHeadPoseAnchor` — an
index-addressable array of `{x, y, z}` points and a record mapping index
keys to `[x, y, z]` triples — produce identical `HeadPoseFrame`s whenever
they carry identical coordinates at the three anchor indices 1, 133, 362. -/
theorem computeHeadPoseAnchor_payload_eq (points : Nat → Point3)
    (table : Nat → ℝ × ℝ × ℝ)
    (h1 : points 1 = pointOfTriple (table 1))
    (h133 : points 133 = pointOfTriple (table 133))
    (h362 : points 362 = pointOfTriple (table 362)) :
    computeHeadPoseAnchor (.arr points) = computeHeadPoseAnchor (.record table) := by
  simp only [computeHeadPoseAnchor, h1, h133, h362, pointOfTriple]

/-- Witness for C10 at concrete payloads. -/
theorem computeHeadPoseAnchor_payload_eq_witness :
    computeHeadPoseAnchor (.arr fun _ => ⟨1, 2, 3⟩) =
      computeHeadPoseAnchor (.record fun _ => ((1 : ℝ), (2 : ℝ), (3 : ℝ))) :=
  computeHeadPoseAnchor_payload_eq _ _ rfl rfl rfl

/-- C1: identity transform of the overlay.  If the live head-pose frame
equals the calibrated frame (same origin, basis vectors, and scale),
the result of `computeTargetLandmarks` is the static target point itself,
exactly over exact arithmetic, for every mouth landmark index — provided
the calibrated anchor triple is non-degenerate (so that the frame is a
genuine orthonormal basis). -/
theorem computeTargetLandmarks_identity (cal : CalibrationData)
    (lm : Nat → Point3) (vowel : String) (shape : Nat → ℝ × ℝ × ℝ)
    (target : Nat → Point3)
    (hshape : staticTargetShape cal vowel = Except.ok shape)
    (htar : computeTargetLandmarks cal lm vowel = Except.ok target)
    (hnd : nondegenerateAnchors (pointOfTriple (cal.neutral.landmarks 1))
      (pointOfTriple (cal.neutral.landmarks 133))
      (pointOfTriple (cal.neutral.landmarks 362)))
    (hEq : computeHeadPoseAnchor (.arr lm) =
      computeHeadPoseAnchor (.record cal.neutral.landmarks)) :
    ∀ id ∈ allMouthIds, target id = pointOfTriple (shape id) := by
  intro id _
  rw [computeTargetLandmarks, hshape] at htar
  simp only [Except.ok.injEq] at htar
  have htid := congrFun htar id
  rw [← htid, hEq]
  exact transformPoint_anchor_self _ _ _ hnd (shape id)

/-- The static shape of the basis vowel ㅏ over the concrete calibration. -/
def shapeA : Nat → ℝ × ℝ × ℝ := fun id =>
  ((calC.a.landmarks id).1, (calC.a.landmarks id).2.1, (calC.a.landmarks id).2.2)

/-- The target landmark function of `computeTargetLandmarks` over the
concrete calibration, live landmarks equal to the calibrated ones. -/
noncomputable def targetA : Nat → Point3 := fun id =>
  transformPoint (computeHeadPoseAnchor (.record calC.neutral.landmarks))
    (computeHeadPoseAnchor (.arr lmArrC)) (shapeA id)

theorem shapeA_ok : staticTargetShape calC "ㅏ" = Except.ok shapeA := rfl

theorem targetA_ok : computeTargetLandmarks calC lmArrC "ㅏ" = Except.ok targetA := rfl

/-- Witness for C1: concrete calibration, live landmarks that coincide
with the calibrated neutral frame, basis vowel ㅏ, mouth index 61. -/
theorem computeTargetLandmarks_identity_witness :
    staticTargetShape calC "ㅏ" = Except.ok shapeA ∧
    computeTargetLandmarks calC lmArrC "ㅏ" = Except.ok targetA ∧
    targetA 61 = pointOfTriple (shapeA 61) :=
  ⟨shapeA_ok, targetA_ok,
   computeTargetLandmarks_identity calC lmArrC "ㅏ" shapeA targetA shapeA_ok
     targetA_ok calC_nondeg rfl 61 (by decide)⟩

/-- C4: for each basis vowel ㅏ, ㅜ, ㅣ the static target shape equals the
stored calibration landmark coordinates of the corresponding frame
(a, u, i), verbatim and exactly, for every tracked mouth landmark index —
no interpolation is applied. -/
theorem staticTargetShape_basis_exact (cal : CalibrationData) :
    ∃ sa su si,
      staticTargetShape cal "ㅏ" = Except.ok sa ∧
      staticTargetShape cal "ㅜ" = Except.ok su ∧
      staticTargetShape cal "ㅣ" = Except.ok si ∧
      ∀ id ∈ allMouthIds,
        sa id = cal.a.landmarks id ∧ su id = cal.u.landmarks id ∧
        si id = cal.i.landmarks id := by
  refine ⟨_, _, _, rfl, rfl, rfl, ?_⟩
  intro id _
  exact ⟨rfl, rfl, rfl⟩

/-- Witness for C4 over the concrete calibration, at mouth index 61. -/
theorem staticTargetShape_basis_exact_witness :
    ∃ sa, staticTargetShape calC "ㅏ" = Except.ok sa ∧
      sa 61 = calC.a.landmarks 61 := by
  obtain ⟨sa, su, si, h1, _, _, h4⟩ := staticTargetShape_basis_exact calC
  exact ⟨sa, h1, (h4 61 (by decide)).1⟩

theorem coeffs_not_calibrated (vowel : String) (c : Coeffs)
    (h : VOWEL_COEFFS_MONO vowel = some c) : isCalibrated vowel = false := by
  unfold VOWEL_COEFFS_MONO at h
  split_ifs at h with h1 h2 h3 h4 h5 h6 h7
  · subst h1; rfl
  · subst h2; rfl
  · subst h3; rfl
  · subst h4; rfl
  · subst h5; rfl
  · subst h6; rfl
  · subst h7; rfl

/-- C5: for every derived vowel with coefficients `{open, round, spread}`
and every tracked mouth index, the static target is
`neutral + open·(a − neutral) + round·(u − neutral) + spread·(i − neutral)`
independently per coordinate axis; coefficients `{0,0,0}` reproduce the
neutral shape exactly and `{1,0,0}` reproduce the ㅏ shape exactly. -/
theorem staticTargetShape_derived_interp (cal : CalibrationData) :
    (∀ vowel c, VOWEL_COEFFS_MONO vowel = some c →
      ∀ sh, staticTargetShape cal vowel = Except.ok sh →
        ∀ id ∈ allMouthIds,
          sh id =
            ((cal.neutral.landmarks id).1 +
               c.openC * ((cal.a.landmarks id).1 - (cal.neutral.landmarks id).1) +
               c.roundC * ((cal.u.landmarks id).1 - (cal.neutral.landmarks id).1) +
               c.spreadC * ((cal.i.landmarks id).1 - (cal.neutral.landmarks id).1),
             (cal.neutral.landmarks id).2.1 +
               c.openC * ((cal.a.landmarks id).2.1 - (cal.neutral.landmarks id).2.1) +
               c.roundC * ((cal.u.landmarks id).2.1 - (cal.neutral.landmarks id).2.1) +
               c.spreadC * ((cal.i.landmarks id).2.1 - (cal.neutral.landmarks id).2.1),
             (cal.neutral.landmarks id).2.2 +
               c.openC * ((cal.a.landmarks id).2.2 - (cal.neutral.landmarks id).2.2) +
               c.roundC * ((cal.u.landmarks id).2.2 - (cal.neutral.landmarks id).2.2) +
               c.spreadC * ((cal.i.landmarks id).2.2 - (cal.neutral.landmarks id).2.2))) ∧
    (∀ id, interpPoint cal ⟨0, 0, 0⟩ id = cal.neutral.landmarks id) ∧
    (∀ id, interpPoint cal ⟨1, 0, 0⟩ id = cal.a.landmarks id) := by
  refine ⟨?_, ?_, ?_⟩
  · intro vowel c hc sh hsh id _
    have hnc := coeffs_not_calibrated vowel c hc
    rw [staticTargetShape, hnc] at hsh
    simp only [Bool.false_eq_true, if_false, hc, Except.ok.injEq] at hsh
    rw [← congrFun hsh id]
    rfl
  · intro id
    have heta : cal.neutral.landmarks id =
        ((cal.neutral.landmarks id).1, (cal.neutral.landmarks id).2.1,
         (cal.neutral.landmarks id).2.2) := rfl
    rw [heta]
    simp only [interpPoint, Prod.mk.injEq]
    norm_num
  · intro id
    have heta : cal.a.landmarks id =
        ((cal.a.landmarks id).1, (cal.a.landmarks id).2.1,
         (cal.a.landmarks id).2.2) := rfl
    rw [heta]
    simp only [interpPoint, Prod.mk.injEq]
    refine ⟨by ring, by ring, by ring⟩

/-- Witness for C5: the derived vowel ㅔ over the concrete calibration at
mouth index 61, plus the two coefficient specializations. -/
theorem staticTargetShape_derived_interp_witness :
    (∃ sh, staticTargetShape calC "ㅔ" = Except.ok sh ∧
      sh 61 = ((0.49 : ℝ), (0.58 : ℝ), (0.75 : ℝ))) ∧
    interpPoint calC ⟨0, 0, 0⟩ 61 = calC.neutral.landmarks 61 ∧
    interpPoint calC ⟨1, 0, 0⟩ 61 = calC.a.landmarks 61 := by
  refine ⟨⟨_, rfl, ?_⟩, (staticTargetShape_derived_interp calC).2.1 61,
    (staticTargetShape_derived_interp calC).2.2 61⟩
  have h := (staticTargetShape_derived_interp calC).1 "ㅔ" ⟨0.40, 0.0, 0.70⟩
    rfl _ rfl 61 (by decide)
  rw [h]
  show ((0.4 : ℝ) + 0.40 * (0.1 - 0.4) + 0.0 * (0.4 - 0.4) + 0.70 * (0.7 - 0.4),
        (0.6 : ℝ) + 0.40 * (0.2 - 0.6) + 0.0 * (0.5 - 0.6) + 0.70 * (0.8 - 0.6),
        (0 : ℝ) + 0.40 * (0.3 - 0) + 0.0 * (0.6 - 0) + 0.70 * (0.9 - 0)) =
      ((0.49 : ℝ), (0.58 : ℝ), (0.75 : ℝ))
  norm_num

/-- The fixed 10-symbol vowel enumeration of the spec: the 3 basis vowels
followed by the 7 derived coefficient-table entries. -/
def vowelSymbols : List String :=
  ["ㅏ", "ㅜ", "ㅣ", "ㅓ", "ㅔ", "ㅐ", "ㅗ", "ㅛ", "ㅠ", "ㅡ"]

theorem computeTargetLandmarks_ok_of_shape (cal : CalibrationData)
    (lm : Nat → Point3) (vowel : String) (g : Nat → ℝ × ℝ × ℝ)
    (hg : staticTargetShape cal vowel = Except.ok g) :
    computeTargetLandmarks cal lm vowel =
      Except.ok (fun id =>
        transformPoint (computeHeadPoseAnchor (.record cal.neutral.landmarks))
          (computeHeadPoseAnchor (.arr lm)) (g id)) := by
  rw [computeTargetLandmarks, hg]

theorem computeTargetLandmarks_error_of_shape (cal : CalibrationData)
    (lm : Nat → Point3) (vowel : String) (e : VowelError)
    (hg : staticTargetShape cal vowel = Except.error e) :
    computeTargetLandmarks cal lm vowel = Except.error e := by
  rw [computeTargetLandmarks, hg]

theorem staticTargetShape_cases (cal : CalibrationData) (vowel : String) :
    (vowel ∈ vowelSymbols ∧ ∃ g, staticTargetShape cal vowel = Except.ok g) ∨
    (vowel ∉ vowelSymbols ∧
      staticTargetShape cal vowel = Except.error (VowelError.unknownVowel vowel)) := by
  by_cases h1 : vowel = "ㅏ"
  · exact Or.inl ⟨by simp [vowelSymbols, h1], by subst h1; exact ⟨_, rfl⟩⟩
  by_cases h2 : vowel = "ㅜ"
  · exact Or.inl ⟨by simp [vowelSymbols, h2], by subst h2; exact ⟨_, rfl⟩⟩
  by_cases h3 : vowel = "ㅣ"
  · exact Or.inl ⟨by simp [vowelSymbols, h3], by subst h3; exact ⟨_, rfl⟩⟩
  by_cases h4 : vowel = "ㅓ"
  · exact Or.inl ⟨by simp [vowelSymbols, h4], by subst h4; exact ⟨_, rfl⟩⟩
  by_cases h5 : vowel = "ㅔ"
  · exact Or.inl ⟨by simp [vowelSymbols, h5], by subst h5; exact ⟨_, rfl⟩⟩
  by_cases h6 : vowel = "ㅐ"
  · exact Or.inl ⟨by simp [vowelSymbols, h6], by subst h6; exact ⟨_, rfl⟩⟩
  by_cases h7 : vowel = "ㅗ"
  · exact Or.inl ⟨by simp [vowelSymbols, h7], by subst h7; exact ⟨_, rfl⟩⟩
  by_cases h8 : vowel = "ㅛ"
  · exact Or.inl ⟨by simp [vowelSymbols, h8], by subst h8; exact ⟨_, rfl⟩⟩
  by_cases h9 : vowel = "ㅠ"
  · exact Or.inl ⟨by simp [vowelSymbols, h9], by subst h9; exact ⟨_, rfl⟩⟩
  by_cases h10 : vowel = "ㅡ"
  · exact Or.inl ⟨by simp [vowelSymbols, h10], by subst h10; exact ⟨_, rfl⟩⟩
  refine Or.inr ⟨by simp [vowelSymbols, h1, h2, h3, h4, h5, h6, h7, h8, h9, h10], ?_⟩
  rw [staticTargetShape]
  have hnc : isCalibrated vowel = false := by
    simp [isCalibrated, h1, h2, h3]
  rw [hnc]
  have hcoef : VOWEL_COEFFS_MONO vowel = none := by
    simp [VOWEL_COEFFS_MONO, h4, h5, h6, h7, h8, h9, h10]
  simp [hcoef]

/-- C7: `computeTargetLandmarks` succeeds exactly on the fixed 10-symbol
enumeration (3 basis vowels + 7 derived coefficient entries) and fails
with `UnknownVowel` on every other symbol. -/
theorem computeTargetLandmarks_unknown_vowel (cal : CalibrationData)
    (lm : Nat → Point3) (vowel : String) :
    ((∃ f, computeTargetLandmarks cal lm vowel = Except.ok f) ↔
      vowel ∈ vowelSymbols) ∧
    (vowel ∉ vowelSymbols →
      computeTargetLandmarks cal lm vowel =
        Except.error (VowelError.unknownVowel vowel)) := by
  rcases staticTargetShape_cases cal vowel with ⟨hmem, g, hg⟩ | ⟨hmem, herr⟩
  · refine ⟨⟨fun _ => hmem, fun _ => ⟨_, computeTargetLandmarks_ok_of_shape cal lm vowel g hg⟩⟩, ?_⟩
    intro hm
    exact absurd hmem hm
  · refine ⟨⟨?_, fun hm => absurd hm hmem⟩, ?_⟩
    · intro hex
      obtain ⟨f, hf⟩ := hex
      rw [computeTargetLandmarks_error_of_shape cal lm vowel _ herr] at hf
      exact absurd hf (by simp)
    · intro _
      exact computeTargetLandmarks_error_of_shape cal lm vowel _ herr

/-- Witness for C7: ㅏ succeeds, the non-vowel symbol "x" fails with
`UnknownVowel`. -/
theorem computeTargetLandmarks_unknown_vowel_witness :
    (∃ f, computeTargetLandmarks calC lmArrC "ㅏ" = Except.ok f) ∧
    computeTargetLandmarks calC lmArrC "x" =
      Except.error (VowelError.unknownVowel "x") :=
  ⟨(computeTargetLandmarks_unknown_vowel calC lmArrC "ㅏ").1.mpr (by decide),
   (computeTargetLandmarks_unknown_vowel calC lmArrC "x").2 (by decide)⟩

/-! ### Feature extractor claims -/

theorem distance3D_unit :
    distance3D ((0 : ℝ), (0 : ℝ), (0 : ℝ)) ((1 : ℝ), (0 : ℝ), (0 : ℝ)) = 1 := by
  have h : ((1 : ℝ) - 0) * (1 - 0) + (0 - 0) * (0 - 0) + (0 - 0) * (0 - 0) = 1 := by
    norm_num
  rw [distance3D]
  rw [show ((1 : ℝ), (0 : ℝ), (0 : ℝ)).1 = (1 : ℝ) from rfl]
  simp only []
  norm_num

/-- A concrete landmark map defined (`some`) at every index. -/
def lmC : Nat → Option (ℝ × ℝ × ℝ) := fun idx =>
  if idx = 133 then some (0, 0, 0)
  else if idx = 362 then some (1, 0, 0)
  else some (0.5, 0.5, 0)

/-- `lmC` with the left-eye-inner index removed. -/
def lm133 : Nat → Option (ℝ × ℝ × ℝ) := fun idx =>
  if idx = 133 then none else lmC idx

/-- A landmark map defined at exactly the ten indices the feature
computation reads (eye inners, mouth corners, lip triples), absent
everywhere else — in particular at the nose tip index 1. -/
def lm10 : Nat → Option (ℝ × ℝ × ℝ) := fun idx =>
  if idx = 133 then some (0, 0, 0)
  else if idx = 362 then some (1, 0, 0)
  else if idx ∈ ([61, 291, 13, 81, 178, 14, 311, 405] : List Nat) then some (0.5, 0.5, 0)
  else none

theorem find?_none_of_all_some (lm : Nat → Option (ℝ × ℝ × ℝ))
    (hall : ∀ idx ∈ REQUIRED_LANDMARKS, (lm idx).isSome) :
    REQUIRED_LANDMARKS.find? (fun idx => (lm idx).isNone) = none := by
  rw [List.find?_eq_none]
  intro x hx hcontra
  have hs := hall x hx
  rw [Option.isNone_iff_eq_none.mp hcontra] at hs
  simp at hs

/-- C6 counterexample: a landmark map containing the two eye-inner
indices, the two mouth-corner indices, and both lip triples (with a
healthy eye distance of 1) is nonetheless rejected by `computeFeatures`,
with `MissingLandmark 1`: the code requires all 17 `REQUIRED_LANDMARKS`,
not just the ten indices the claim lists. -/
theorem computeFeatures_minimum_insufficient :
    (∀ idx ∈ ([133, 362, 61, 291, 13, 81, 178, 14, 311, 405] : List Nat),
      (lm10 idx).isSome) ∧
    distance3D ((lm10 133).getD (0, 0, 0)) ((lm10 362).getD (0, 0, 0)) = 1 ∧
    computeFeatures lm10 = Except.error (VowelError.missingLandmark 1) := by
  refine ⟨by decide, ?_, rfl⟩
  show distance3D ((0 : ℝ), (0 : ℝ), (0 : ℝ)) ((1 : ℝ), (0 : ℝ), (0 : ℝ)) = 1
  exact distance3D_unit

theorem computeFeatures_missing_of_absent (lm : Nat → Option (ℝ × ℝ × ℝ))
    (j : Nat) (hj : j ∈ REQUIRED_LANDMARKS) (hjnone : lm j = none) :
    ∃ i ∈ REQUIRED_LANDMARKS, lm i = none ∧
      computeFeatures lm = Except.error (VowelError.missingLandmark i) := by
  have hsome : (REQUIRED_LANDMARKS.find? (fun idx => (lm idx).isNone)).isSome := by
    rw [List.find?_isSome]
    exact ⟨j, hj, by simp [hjnone]⟩
  obtain ⟨i, hi⟩ := Option.isSome_iff_exists.mp hsome
  have hp := @List.find?_some Nat (fun idx => (lm idx).isNone) i REQUIRED_LANDMARKS hi
  have hnone : lm i = none := Option.isNone_iff_eq_none.mp hp
  refine ⟨i, List.mem_of_find?_eq_some hi, hnone, ?_⟩
  simp only [computeFeatures, hi]

/-- C6 (amended): `computeFeatures` succeeds on any landmark map that
contains all 17 `REQUIRED_LANDMARKS` indices, given a non-degenerate eye
distance; it fails with `MissingLandmark` exactly when one of those 17
required indices is absent — whichever required index is missing, a
`MissingLandmark` failure naming an absent required index results, and
every `MissingLandmark` failure names an absent required index, so no
default is ever substituted for a missing landmark (in particular a map
missing index 133 fails with `MissingLandmark`). -/
theorem computeFeatures_validation (lm : Nat → Option (ℝ × ℝ × ℝ)) :
    ((∀ idx ∈ REQUIRED_LANDMARKS, (lm idx).isSome) →
      ¬ distance3D ((lm 133).getD (0, 0, 0)) ((lm 362).getD (0, 0, 0)) < EPSILON →
      ∃ fv, computeFeatures lm = Except.ok fv) ∧
    (∀ j ∈ REQUIRED_LANDMARKS, lm j = none →
      ∃ i ∈ REQUIRED_LANDMARKS, lm i = none ∧
        computeFeatures lm = Except.error (VowelError.missingLandmark i)) ∧
    (lm 133 = none →
      ∃ i, lm i = none ∧
        computeFeatures lm = Except.error (VowelError.missingLandmark i)) ∧
    (∀ i, computeFeatures lm = Except.error (VowelError.missingLandmark i) →
      i ∈ REQUIRED_LANDMARKS ∧ lm i = none) := by
  refine ⟨?_, ?_, ?_, ?_⟩
  · intro hall hdist
    simp only [computeFeatures, find?_none_of_all_some lm hall]
    rw [if_neg hdist]
    exact ⟨_, rfl⟩
  · intro j hj hjnone
    exact computeFeatures_missing_of_absent lm j hj hjnone
  · intro h133
    obtain ⟨i, _, hnone, herr⟩ :=
      computeFeatures_missing_of_absent lm 133 (by decide) h133
    exact ⟨i, hnone, herr⟩
  · intro i h
    cases hfind : REQUIRED_LANDMARKS.find? (fun idx => (lm idx).isNone) with
    | none =>
        simp only [computeFeatures, hfind] at h
        split_ifs at h
        simp at h
    | some j =>
        simp only [computeFeatures, hfind, Except.error.injEq,
          VowelError.missingLandmark.injEq] at h
        subst h
        have hp := @List.find?_some Nat (fun idx => (lm idx).isNone) j REQUIRED_LANDMARKS hfind
        exact ⟨List.mem_of_find?_eq_some hfind, Option.isNone_iff_eq_none.mp hp⟩

/-- `lmC` with the right-mouth-corner index removed. -/
def lm291 : Nat → Option (ℝ × ℝ × ℝ) := fun idx =>
  if idx = 291 then none else lmC idx

/-- Witness for C6: the full map succeeds; the map missing only the
required index 291 fails with `MissingLandmark` naming an absent
required index; the map missing index 133 fails with `MissingLandmark`. -/
theorem computeFeatures_validation_witness :
    (∃ fv, computeFeatures lmC = Except.ok fv) ∧
    (∃ i ∈ REQUIRED_LANDMARKS, lm291 i = none ∧
      computeFeatures lm291 = Except.error (VowelError.missingLandmark i)) ∧
    (∃ i, lm133 i = none ∧
      computeFeatures lm133 = Except.error (VowelError.missingLandmark i)) := by
  refine ⟨?_, ?_, ?_⟩
  · apply (computeFeatures_validation lmC).1
    · decide
    · show ¬ distance3D ((0 : ℝ), (0 : ℝ), (0 : ℝ)) ((1 : ℝ), (0 : ℝ), (0 : ℝ)) < EPSILON
      rw [distance3D_unit]
      norm_num [EPSILON]
  · exact (computeFeatures_validation lm291).2.1 291 (by decide) rfl
  · exact (computeFeatures_validation lm133).2.2.1 rfl

/-- C8: on a landmark map containing all required indices,
`computeFeatures` fails with `DegenerateNormalization` exactly when the
eye distance is below ε, and otherwise returns
`W = dist(mouthCornerL, mouthCornerR) / eyeDistance`,
`A = (L − U) / eyeDistance` with `U`, `L` the means of the y coordinates
of the three upper- and lower-lip samples, and `P = 1 / max(W, ε)`; the
invariant `P = 1 / max(W, ε)` holds for every produced `FeatureVec`. -/
theorem computeFeatures_post (lm : Nat → Option (ℝ × ℝ × ℝ))
    (hall : ∀ idx ∈ REQUIRED_LANDMARKS, (lm idx).isSome) :
    (distance3D ((lm 133).getD (0, 0, 0)) ((lm 362).getD (0, 0, 0)) < EPSILON →
      computeFeatures lm = Except.error VowelError.degenerateNormalization) ∧
    (¬ distance3D ((lm 133).getD (0, 0, 0)) ((lm 362).getD (0, 0, 0)) < EPSILON →
      computeFeatures lm = Except.ok
        ⟨((((lm 14).getD (0, 0, 0)).2.1 + ((lm 311).getD (0, 0, 0)).2.1 +
             ((lm 405).getD (0, 0, 0)).2.1) / 3 -
           (((lm 13).getD (0, 0, 0)).2.1 + ((lm 81).getD (0, 0, 0)).2.1 +
             ((lm 178).getD (0, 0, 0)).2.1) / 3) /
          distance3D ((lm 133).getD (0, 0, 0)) ((lm 362).getD (0, 0, 0)),
         distance3D ((lm 61).getD (0, 0, 0)) ((lm 291).getD (0, 0, 0)) /
          distance3D ((lm 133).getD (0, 0, 0)) ((lm 362).getD (0, 0, 0)),
         1 / max (distance3D ((lm 61).getD (0, 0, 0)) ((lm 291).getD (0, 0, 0)) /
          distance3D ((lm 133).getD (0, 0, 0)) ((lm 362).getD (0, 0, 0))) EPSILON⟩) ∧
    (∀ fv, computeFeatures lm = Except.ok fv → fv.P = 1 / max fv.W EPSILON) := by
  have hfind := find?_none_of_all_some lm hall
  have havg : ∀ (f : Nat → ℝ × ℝ × ℝ) (a b c : Nat),
      avgY f [a, b, c] = ((f a).2.1 + (f b).2.1 + (f c).2.1) / 3 := by
    intro f a b c
    simp [avgY]
    ring
  refine ⟨?_, ?_, ?_⟩
  · intro h
    simp only [computeFeatures, hfind]
    rw [if_pos h]
  · intro h
    simp only [computeFeatures, hfind]
    rw [if_neg h]
    simp only [Except.ok.injEq, FeatureVec.mk.injEq, havg]
    norm_num
  · intro fv hfv
    simp only [computeFeatures, hfind] at hfv
    by_cases hc : distance3D ((lm 133).getD (0, 0, 0)) ((lm 362).getD (0, 0, 0)) < EPSILON
    · rw [if_pos hc] at hfv
      exact absurd hfv (by simp)
    · rw [if_neg hc] at hfv
      simp only [Except.ok.injEq] at hfv
      subst hfv
      show (1.0 : ℝ) / max _ EPSILON = 1 / max _ EPSILON
      norm_num

/-- Witness for C8: the full concrete map produces a `FeatureVec`
satisfying the `P = 1 / max(W, ε)` invariant. -/
theorem computeFeatures_post_witness :
    (∀ idx ∈ REQUIRED_LANDMARKS, (lmC idx).isSome) ∧
    ∃ fv, computeFeatures lmC = Except.ok fv ∧ fv.P = 1 / max fv.W EPSILON := by
  have hall : ∀ idx ∈ REQUIRED_LANDMARKS, (lmC idx).isSome := by decide
  have hdist : ¬ distance3D ((lmC 133).getD (0, 0, 0)) ((lmC 362).getD (0, 0, 0)) <
      EPSILON := by
    show ¬ distance3D ((0 : ℝ), (0 : ℝ), (0 : ℝ)) ((1 : ℝ), (0 : ℝ), (0 : ℝ)) < EPSILON
    rw [distance3D_unit]
    norm_num [EPSILON]
  have h := computeFeatures_post lmC hall
  exact ⟨hall, _, h.2.1 hdist, h.2.2 _ (h.2.1 hdist)⟩

/-! ### Temporal smoother claim -/

theorem mapIdx_getD (l : List ℝ) (f : Nat → ℝ → ℝ) (i : Nat) (hi : i < l.length) :
    (l.mapIdx f).getD i 0 = f i (l.getD i 0) := by
  have hi2 : i < (l.mapIdx f).length := by
    rw [List.length_mapIdx]
    exact hi
  rw [List.getD_eq_getElem _ _ hi2, List.getD_eq_getElem _ _ hi]
  exact List.get_mapIdx l f i hi

/-- C9: the first sample of a stream passes through `smoothBlendshapes`
unmodified; every subsequent sample is smoothed componentwise as
`previous[i]·α + new[i]·(1 − α)` with `α = 0.7`, where `previous` is the
most recently returned smoothed vector (the last history entry — the
final conjunct shows the state invariant that the last history entry is
always the vector just returned). -/
theorem smoothBlendshapes_step (hist : List (List ℝ)) (nb : List ℝ) :
    (smoothBlendshapes [] nb).2 = nb ∧
    (hist ≠ [] → ∀ i, i < nb.length →
      (smoothBlendshapes hist nb).2.getD i 0 =
        (hist.getLastD []).getD i 0 * 0.7 + nb.getD i 0 * (1 - 0.7)) ∧
    smoothingFactor = 0.7 ∧
    (smoothBlendshapes hist nb).1.getLastD [] = (smoothBlendshapes hist nb).2 := by
  refine ⟨?_, ?_, rfl, ?_⟩
  · simp [smoothBlendshapes]
  · intro h i hi
    simp only [smoothBlendshapes, if_neg h]
    rw [mapIdx_getD _ _ _ hi]
    norm_num [smoothingFactor]
  · by_cases h : hist = []
    · subst h
      simp [smoothBlendshapes]
    · simp only [smoothBlendshapes, if_neg h]
      split_ifs with h5
      · cases hist with
        | nil => exact absurd rfl h
        | cons a t =>
            simp [List.getLastD_concat]
      · simp [List.getLastD_concat]

/-- Witness for C9: a singleton history and a one-element new vector. -/
theorem smoothBlendshapes_step_witness :
    (smoothBlendshapes [] [(2 : ℝ)]).2 = [(2 : ℝ)] ∧
    (smoothBlendshapes [[(1 : ℝ)]] [(2 : ℝ)]).2.getD 0 0 =
      ([[(1 : ℝ)]].getLastD []).getD 0 0 * 0.7 + [(2 : ℝ)].getD 0 0 * (1 - 0.7) :=
  ⟨(smoothBlendshapes_step [[(1 : ℝ)]] [(2 : ℝ)]).1,
   (smoothBlendshapes_step [[(1 : ℝ)]] [(2 : ℝ)]).2.1 (by simp) 0 (by simp)⟩

end SayJong
